import Mathlib

/-!
Verification of the agent protocol and reward-statistics core of pyaixi
(file pyaixi/agent.py), as a shallow embedding in Lean 4.

Modelling choices:
- Actions and observations are integers; rewards are rational numbers
  (the claims about the statistics are stated in exact arithmetic).
- A Python method that can raise returns a pair of the object state at the
  moment the exception is raised together with an optional error; a result
  of the form (s, some e) means the call raised e while the object was in
  state s, and (s, none) means the call completed normally in state s.
  The assert statements of agent.py all occur before any field mutation.
- The three assertion failures are given the names the specification uses
  for them: ConfigurationError (missing environment at construction),
  InvalidActionError (environment rejects the action) and ProtocolError
  (phase-alternation violation).  IndexError and ValueError model the
  Python exceptions of random choice from an empty collection.
- The environment collaborator is a record of the capabilities agent.py
  consumes: is_valid_action, and the optional valid_actions set and
  minimum_action / maximum_action bounds (an Option field being none
  models hasattr returning False).
-/

/-- Modelled from the spec: the update-type enumeration produced by
util.enum in agent.py (pyaixi/util.py is not under src); the spec describes
it as the two-valued enum ACTION_UPDATE / PERCEPT_UPDATE. -/
inductive Update where
  | action_update
  | percept_update
  deriving DecidableEq, Repr

/-- The error taxonomy of the specification, plus the two Python standard
exceptions reachable from generate_random_action. -/
inductive AgentError where
  | ConfigurationError
  | InvalidActionError
  | ProtocolError
  | IndexError
  | ValueError
  deriving DecidableEq, Repr

/-- The capability interface of the environment collaborator, as consumed
by agent.py.  A none in valid_actions / minimum_action / maximum_action
models the absence of that attribute (hasattr returning False). -/
structure Environment where
  is_valid_action : Int → Bool
  valid_actions : Option (List Int)
  minimum_action : Option Int
  maximum_action : Option Int

/-- The mutable state of an Agent instance: the fields set by
Agent.__init__ in agent.py. -/
structure Agent where
  environment : Environment
  options : List (String × Int)
  learning_period : Int
  age : Nat
  last_update : Update
  mean_reward : ℚ
  reward_m2 : ℚ
  total_reward : ℚ

/-- The options key read by the constructor. -/
def learning_period_key : String := "learning-period"

/-- The state built by Agent.__init__ when the environment is present:
age = 0, last_update = action_update, learning_period read from the
options with default 0, options stored, and zero reward statistics. -/
def Agent.mk0 (environment : Environment) (options : List (String × Int)) : Agent :=
  { environment := environment
    options := options
    learning_period := (options.lookup learning_period_key).getD 0
    age := 0
    last_update := Update.action_update
    mean_reward := 0
    reward_m2 := 0
    total_reward := 0 }

/-- Agent.__init__ of agent.py: asserts that the environment is not None
(the specification names this failure ConfigurationError), then initialises
the fields as in Agent.mk0. -/
def Agent.init (environment : Option Environment) (options : List (String × Int)) :
    Except AgentError Agent :=
  match environment with
  | none => Except.error AgentError.ConfigurationError
  | some env => Except.ok (Agent.mk0 env options)

/-- Agent.update_reward_statistics of agent.py: the Welford update with
n = age + 1, delta taken against the old mean, the mean updated by
delta / n, reward_m2 updated by delta times the deviation from the new
mean, and the total updated by the reward. -/
def Agent.update_reward_statistics (s : Agent) (reward : ℚ) : Agent :=
  let n : ℚ := (s.age : ℚ) + 1
  let delta : ℚ := reward - s.mean_reward
  let mean1 : ℚ := s.mean_reward + delta / n
  { s with
    mean_reward := mean1
    reward_m2 := s.reward_m2 + delta * (reward - mean1)
    total_reward := s.total_reward + reward }

/-- Agent.model_update_action of agent.py: first asserts that the
environment accepts the action (InvalidActionError), then asserts that the
last update was a percept update (ProtocolError), then increments age and
sets last_update to action_update. -/
def Agent.model_update_action (s : Agent) (action : Int) : Agent × Option AgentError :=
  if s.environment.is_valid_action action = false then
    (s, some AgentError.InvalidActionError)
  else if s.last_update ≠ Update.percept_update then
    (s, some AgentError.ProtocolError)
  else
    ({ s with age := s.age + 1, last_update := Update.action_update }, none)

/-- Agent.model_update_percept of agent.py: asserts that the last update
was an action update (ProtocolError), then applies
update_reward_statistics to the reward and sets last_update to
percept_update.  The observation is not stored. -/
def Agent.model_update_percept (s : Agent) (observation : Int) (reward : ℚ) :
    Agent × Option AgentError :=
  if s.last_update ≠ Update.action_update then
    (s, some AgentError.ProtocolError)
  else
    ({ s.update_reward_statistics reward with last_update := Update.percept_update }, none)

/-- Agent.reset of agent.py: zeroes age and the three reward statistics and
returns the phase to action_update, leaving environment, options and
learning_period untouched. -/
def Agent.reset (s : Agent) : Agent :=
  { s with
    age := 0
    mean_reward := 0
    reward_m2 := 0
    total_reward := 0
    last_update := Update.action_update }

/-- Modelled from the spec: util.choice (pyaixi/util.py is not under src).
The spec says the action is chosen uniformly at random from the set of
valid actions; the random draw is modelled by an explicit index reduced
modulo the size of the collection, with none on an empty collection
(where a random choice raises IndexError). -/
def util_choice (xs : List Int) (i : Nat) : Option Int :=
  xs.get? (i % xs.length)

/-- Python random.randrange lo hi: an integer drawn uniformly at random
from the half-open interval lo ≤ a < hi, raising ValueError (here none)
when the interval is empty.  The draw is modelled by an explicit index. -/
def randrange (lo hi : Int) (i : Nat) : Option Int :=
  if lo < hi then some (lo + ((i % (hi - lo).toNat : Nat) : Int)) else none

/-- Agent.generate_random_action of agent.py: if the environment exposes
valid_actions, choose from that collection (IndexError when it is empty);
otherwise, if it exposes both minimum_action and maximum_action, draw from
the half-open range (ValueError when empty); otherwise fall through and
return no value. -/
def Agent.generate_random_action (s : Agent) (i : Nat) : Except AgentError (Option Int) :=
  match s.environment.valid_actions with
  | some xs =>
    match util_choice xs i with
    | some a => Except.ok (some a)
    | none => Except.error AgentError.IndexError
  | none =>
    match s.environment.minimum_action, s.environment.maximum_action with
    | some lo, some hi =>
      match randrange lo hi i with
      | some a => Except.ok (some a)
      | none => Except.error AgentError.ValueError
    | _, _ => Except.ok none

/-- One call of the interaction loop: either a model_update_action with an
action, or a model_update_percept with an observation and a reward. -/
inductive Call where
  | act (action : Int)
  | per (observation : Int) (reward : ℚ)

/-- Run a sequence of calls against an agent, stopping at the first raised
error (which aborts the run the way an uncaught exception would). -/
def run_calls (s : Agent) : List Call → Agent × Option AgentError
  | [] => (s, none)
  | Call.act a :: cs =>
    match s.model_update_action a with
    | (s1, none) => run_calls s1 cs
    | (s1, some e) => (s1, some e)
  | Call.per o r :: cs =>
    match s.model_update_percept o r with
    | (s1, none) => run_calls s1 cs
    | (s1, some e) => (s1, some e)

/-- The rewards delivered by the percept calls of a call sequence, in
order. -/
def perceptRewards : List Call → List ℚ
  | [] => []
  | Call.act _ :: cs => perceptRewards cs
  | Call.per _ r :: cs => r :: perceptRewards cs

/-- The number of action calls in a call sequence. -/
def countActions : List Call → Nat
  | [] => 0
  | Call.act _ :: cs => countActions cs + 1
  | Call.per _ _ :: cs => countActions cs

/-- The population variance of a list of rationals, computed by the direct
non-incremental formula: the mean of the squared deviations from the mean. -/
def popVariance (rs : List ℚ) : ℚ :=
  (rs.map fun r => (r - rs.sum / (rs.length : ℚ)) ^ 2).sum / (rs.length : ℚ)

/-- A concrete environment used for witnesses: actions 0 and 1 are valid,
an explicit valid_actions collection, and numeric bounds. -/
def envEx : Environment :=
  { is_valid_action := fun a => decide (0 ≤ a ∧ a < 2)
    valid_actions := some [0, 1]
    minimum_action := some 0
    maximum_action := some 2 }

/-- A concrete environment exposing only numeric action bounds. -/
def envBounds : Environment :=
  { is_valid_action := fun a => decide (0 ≤ a ∧ a < 2)
    valid_actions := none
    minimum_action := some 0
    maximum_action := some 2 }

/-- A concrete environment exposing neither valid_actions nor bounds. -/
def envBare : Environment :=
  { is_valid_action := fun _ => true
    valid_actions := none
    minimum_action := none
    maximum_action := none }

/-- A freshly constructed agent over the witness environment. -/
def agentEx : Agent := Agent.mk0 envEx []

/-- The call sequence of the claimed C2 scenario: action first, then
alternating percepts with rewards 1, 2, 3. -/
def claimedCalls : List Call :=
  [Call.act 0, Call.per 0 1, Call.act 0, Call.per 0 2, Call.act 0, Call.per 0 3]

/-- The percept-first variant of the same scenario. -/
def perceptFirstCalls : List Call :=
  [Call.per 0 1, Call.act 0, Call.per 0 2, Call.act 0, Call.per 0 3, Call.act 0]

/-- Unfolding lemma: running no calls returns the state unchanged. -/
lemma run_calls_nil (s : Agent) : run_calls s [] = (s, none) := rfl

/-- Unfolding lemma for a leading action call. -/
lemma run_calls_act (s : Agent) (a : Int) (cs : List Call) :
    run_calls s (Call.act a :: cs) =
      match s.model_update_action a with
      | (s1, none) => run_calls s1 cs
      | (s1, some e) => (s1, some e) := rfl

/-- Unfolding lemma for a leading percept call. -/
lemma run_calls_per (s : Agent) (o : Int) (r : ℚ) (cs : List Call) :
    run_calls s (Call.per o r :: cs) =
      match s.model_update_percept o r with
      | (s1, none) => run_calls s1 cs
      | (s1, some e) => (s1, some e) := rfl

/-- A successful action update requires a valid action and the percept
phase, and increments age while switching the phase to action_update. -/
lemma model_update_action_ok {s : Agent} {a : Int} {s1 : Agent}
    (h : s.model_update_action a = (s1, none)) :
    s.environment.is_valid_action a = true ∧ s.last_update = Update.percept_update ∧
      s1 = { s with age := s.age + 1, last_update := Update.action_update } := by
  unfold Agent.model_update_action at h
  split_ifs at h with h1 h2
  · injection h with h3 h4
    cases h4
  · injection h with h3 h4
    cases h4
  · injection h with h3 h4
    refine ⟨?_, ?_, h3.symm⟩
    · simpa using h1
    · simpa using h2

/-- A successful percept update requires the action phase, applies the
statistics update and switches the phase to percept_update. -/
lemma model_update_percept_ok {s : Agent} {o : Int} {r : ℚ} {s1 : Agent}
    (h : s.model_update_percept o r = (s1, none)) :
    s.last_update = Update.action_update ∧
      s1 = { s.update_reward_statistics r with last_update := Update.percept_update } := by
  unfold Agent.model_update_percept at h
  split_ifs at h with h1
  · injection h with h3 h4
    cases h4
  · injection h with h3 h4
    exact ⟨by simpa using h1, h3.symm⟩

/-- The statistics invariant tying an agent state to the list of rewards
delivered so far: total is the sum, mean is the arithmetic mean, reward_m2
is the sum of squares minus the squared sum over the count, and age counts
the completed action updates (one behind the percept count while in the
percept phase, equal to it in the action phase of an accepted run). -/
def StatsOK (done : List ℚ) (s : Agent) : Prop :=
  s.total_reward = done.sum ∧
  s.mean_reward = done.sum / (done.length : ℚ) ∧
  s.reward_m2 = (done.map fun x => x * x).sum - done.sum * done.sum / (done.length : ℚ) ∧
  (s.last_update = Update.action_update → s.age = done.length) ∧
  (s.last_update = Update.percept_update → s.age + 1 = done.length)

/-- The Welford step: one update_reward_statistics call carries the sum,
mean and m2 invariants from a reward list to the list with one more
reward, and touches neither age nor the phase. -/
lemma update_stats_step (done : List ℚ) (s : Agent) (r : ℚ)
    (hage : s.age = done.length)
    (htot : s.total_reward = done.sum)
    (hmean : s.mean_reward = done.sum / (done.length : ℚ))
    (hm2 : s.reward_m2 =
      (done.map fun x => x * x).sum - done.sum * done.sum / (done.length : ℚ)) :
    (s.update_reward_statistics r).total_reward = (done ++ [r]).sum ∧
    (s.update_reward_statistics r).mean_reward =
      (done ++ [r]).sum / (((done ++ [r]).length : ℚ)) ∧
    (s.update_reward_statistics r).reward_m2 =
      ((done ++ [r]).map fun x => x * x).sum -
        (done ++ [r]).sum * (done ++ [r]).sum / (((done ++ [r]).length : ℚ)) ∧
    (s.update_reward_statistics r).age = s.age ∧
    (s.update_reward_statistics r).last_update = s.last_update := by
  by_cases hd : done = []
  · subst hd
    simp only [List.sum_nil, List.length_nil, Nat.cast_zero, div_zero, List.map_nil] at hmean hm2
    simp only [List.length_nil] at hage
    simp [Agent.update_reward_statistics, hage, htot, hmean, hm2]
  · have hk : (done.length : ℚ) ≠ 0 := by
      have hpos : 0 < done.length := List.length_pos.mpr hd
      exact_mod_cast Nat.pos_iff_ne_zero.mp hpos
    have hk1 : (done.length : ℚ) + 1 ≠ 0 := by positivity
    simp only [Agent.update_reward_statistics, List.sum_append, List.length_append,
      List.map_append, List.sum_cons, List.sum_nil, List.map_cons, List.map_nil,
      List.length_cons, List.length_nil, Nat.cast_add, Nat.cast_one, Nat.cast_zero]
    refine ⟨by rw [htot]; ring, ?_, ?_, by trivial, by trivial⟩
    · rw [hmean, hage]
      field_simp
      ring
    · rw [hm2, hmean, hage]
      field_simp
      ring

/-- The statistics invariant is preserved along any accepted run of calls:
the final state satisfies StatsOK for the rewards delivered so far followed
by the rewards of the percept calls of the run. -/
lemma run_calls_invariant (cs : List Call) :
    ∀ (s : Agent) (done : List ℚ) (s1 : Agent),
      StatsOK done s → run_calls s cs = (s1, none) →
      StatsOK (done ++ perceptRewards cs) s1 := by
  induction cs with
  | nil =>
    intro s done s1 hs hrun
    rw [run_calls_nil] at hrun
    injection hrun with h1 h2
    subst h1
    simpa [perceptRewards] using hs
  | cons c cs ih =>
    intro s done s1 hs hrun
    cases c with
    | act a =>
      rw [run_calls_act] at hrun
      rcases hma : s.model_update_action a with ⟨s2, e2⟩
      rw [hma] at hrun
      cases e2 with
      | some e => simp at hrun
      | none =>
        simp only [] at hrun
        obtain ⟨hval, hphase, hs2⟩ := model_update_action_ok hma
        obtain ⟨htot, hmean, hm2, _, hper⟩ := hs
        have hlen : s.age + 1 = done.length := hper hphase
        have hs2ok : StatsOK done s2 := by
          subst hs2
          exact ⟨htot, hmean, hm2, fun _ => hlen, fun h => by cases h⟩
        have := ih s2 done s1 hs2ok hrun
        simpa [perceptRewards] using this
    | per o r =>
      rw [run_calls_per] at hrun
      rcases hmp : s.model_update_percept o r with ⟨s2, e2⟩
      rw [hmp] at hrun
      cases e2 with
      | some e => simp at hrun
      | none =>
        simp only [] at hrun
        obtain ⟨hphase, hs2⟩ := model_update_percept_ok hmp
        obtain ⟨htot, hmean, hm2, hact, _⟩ := hs
        have hage : s.age = done.length := hact hphase
        obtain ⟨htot2, hmean2, hm22, hage2, _⟩ :=
          update_stats_step done s r hage htot hmean hm2
        have hs2ok : StatsOK (done ++ [r]) s2 := by
          rw [hs2]
          unfold StatsOK
          refine ⟨htot2, hmean2, hm22, ?_, ?_⟩
          · intro h
            exact absurd h (by simp)
          · intro _
            show (s.update_reward_statistics r).age + 1 = (done ++ [r]).length
            rw [hage2, hage]
            simp
        have := ih s2 (done ++ [r]) s1 hs2ok hrun
        simpa [perceptRewards, List.append_assoc] using this

/-- Along any accepted run of calls, age grows by exactly the number of
action calls in the run. -/
lemma run_calls_age (cs : List Call) :
    ∀ (s : Agent) (s1 : Agent),
      run_calls s cs = (s1, none) → s1.age = s.age + countActions cs := by
  induction cs with
  | nil =>
    intro s s1 hrun
    rw [run_calls_nil] at hrun
    injection hrun with h1 h2
    subst h1
    simp [countActions]
  | cons c cs ih =>
    intro s s1 hrun
    cases c with
    | act a =>
      rw [run_calls_act] at hrun
      rcases hma : s.model_update_action a with ⟨s2, e2⟩
      rw [hma] at hrun
      cases e2 with
      | some e => simp at hrun
      | none =>
        simp only [] at hrun
        obtain ⟨_, _, hs2⟩ := model_update_action_ok hma
        have := ih s2 s1 hrun
        subst hs2
        simp only [countActions] at *
        omega
    | per o r =>
      rw [run_calls_per] at hrun
      rcases hmp : s.model_update_percept o r with ⟨s2, e2⟩
      rw [hmp] at hrun
      cases e2 with
      | some e => simp at hrun
      | none =>
        simp only [] at hrun
        obtain ⟨_, hs2⟩ := model_update_percept_ok hmp
        have := ih s2 s1 hrun
        subst hs2
        simpa [countActions, Agent.update_reward_statistics] using this

/-- A fresh agent satisfies the statistics invariant for the empty reward
list. -/
lemma statsOK_mk0 (env : Environment) (opts : List (String × Int)) :
    StatsOK [] (Agent.mk0 env opts) := by
  refine ⟨by simp [Agent.mk0], by simp [Agent.mk0], by simp [Agent.mk0], ?_, ?_⟩
  · intro _
    simp [Agent.mk0]
  · intro h
    simp [Agent.mk0] at h

/-- An agent in the percept phase, used by witnesses. -/
def agentExP : Agent := (agentEx.model_update_percept 0 1).1

/-- Expanding the sum of squared deviations from an arbitrary centre. -/
lemma sum_sq_dev_gen (rs : List ℚ) (m : ℚ) :
    (rs.map fun x => (x - m) ^ 2).sum =
      (rs.map fun x => x * x).sum - 2 * m * rs.sum + (rs.length : ℚ) * m ^ 2 := by
  induction rs with
  | nil => simp
  | cons a rs ih =>
    simp only [List.map_cons, List.sum_cons, List.length_cons, ih]
    push_cast
    ring

/-- For a nonempty list, the sum of squared deviations from the mean is
the sum of squares minus the squared sum over the count. -/
lemma sum_sq_dev (rs : List ℚ) (h : rs ≠ []) :
    (rs.map fun x => (x - rs.sum / (rs.length : ℚ)) ^ 2).sum =
      (rs.map fun x => x * x).sum - rs.sum * rs.sum / (rs.length : ℚ) := by
  have hk : (rs.length : ℚ) ≠ 0 := by
    have hpos : 0 < rs.length := List.length_pos.mpr h
    exact_mod_cast Nat.pos_iff_ne_zero.mp hpos
  rw [sum_sq_dev_gen]
  field_simp
  ring

/-- C1 counterexample: on a freshly constructed agent the very first
model_update_percept call does not fail with ProtocolError; it completes
without error, refuting the claim at this concrete input. -/
theorem C1_counterexample :
    (agentEx.model_update_percept 0 5).2 = none ∧
    (agentEx.model_update_percept 0 5).2 ≠ some AgentError.ProtocolError := by
  constructor
  · decide
  · decide

/-- C1 (amended): on a freshly constructed agent the very first
model_update_percept call succeeds, because the initial phase is
action_update and a percept update is what the protocol expects next; it
is the first model_update_action call, even with a valid action, that
fails with ProtocolError and leaves the state unchanged. -/
theorem C1_first_call_phase (env : Environment) (opts : List (String × Int))
    (o : Int) (r : ℚ) (a : Int) (hval : env.is_valid_action a = true) :
    ((Agent.mk0 env opts).model_update_percept o r).2 = none ∧
    (Agent.mk0 env opts).model_update_action a =
      (Agent.mk0 env opts, some AgentError.ProtocolError) := by
  constructor
  · simp [Agent.model_update_percept, Agent.mk0]
  · simp [Agent.model_update_action, Agent.mk0, hval]

/-- C1 witness: the amended fact at a concrete environment, percept and
action. -/
theorem C1_first_call_phase_witness :
    ((Agent.mk0 envEx []).model_update_percept 0 5).2 = none ∧
    (Agent.mk0 envEx []).model_update_action 0 =
      (Agent.mk0 envEx [], some AgentError.ProtocolError) :=
  C1_first_call_phase envEx [] 0 5 0 (by decide)

/-- C2 counterexample: the claimed action-first sequence raises
ProtocolError on its very first call instead of completing without
error. -/
theorem C2_counterexample :
    (run_calls agentEx claimedCalls).2 = some AgentError.ProtocolError := by
  decide

/-- C2 (amended): starting from a freshly constructed agent, the
percept-first sequence percept(obs, 1), action(a), percept(obs, 2),
action(a), percept(obs, 3), action(a) with a a valid action completes
without error and leaves total_reward = 6, mean_reward = 2 and age = 3. -/
theorem C2_reward_sequence (env : Environment) (opts : List (String × Int))
    (a obs : Int) (hval : env.is_valid_action a = true) :
    (run_calls (Agent.mk0 env opts)
        [Call.per obs 1, Call.act a, Call.per obs 2, Call.act a,
         Call.per obs 3, Call.act a]).2 = none ∧
    (run_calls (Agent.mk0 env opts)
        [Call.per obs 1, Call.act a, Call.per obs 2, Call.act a,
         Call.per obs 3, Call.act a]).1.total_reward = 6 ∧
    (run_calls (Agent.mk0 env opts)
        [Call.per obs 1, Call.act a, Call.per obs 2, Call.act a,
         Call.per obs 3, Call.act a]).1.mean_reward = 2 ∧
    (run_calls (Agent.mk0 env opts)
        [Call.per obs 1, Call.act a, Call.per obs 2, Call.act a,
         Call.per obs 3, Call.act a]).1.age = 3 := by
  simp [run_calls, Agent.model_update_percept, Agent.model_update_action,
    Agent.update_reward_statistics, Agent.mk0, hval]
  norm_num

/-- C2 witness: the amended sequence at a concrete environment and
action. -/
theorem C2_reward_sequence_witness :
    (run_calls (Agent.mk0 envEx [])
        [Call.per 0 1, Call.act 0, Call.per 0 2, Call.act 0,
         Call.per 0 3, Call.act 0]).2 = none ∧
    (run_calls (Agent.mk0 envEx [])
        [Call.per 0 1, Call.act 0, Call.per 0 2, Call.act 0,
         Call.per 0 3, Call.act 0]).1.total_reward = 6 ∧
    (run_calls (Agent.mk0 envEx [])
        [Call.per 0 1, Call.act 0, Call.per 0 2, Call.act 0,
         Call.per 0 3, Call.act 0]).1.mean_reward = 2 ∧
    (run_calls (Agent.mk0 envEx [])
        [Call.per 0 1, Call.act 0, Call.per 0 2, Call.act 0,
         Call.per 0 3, Call.act 0]).1.age = 3 :=
  C2_reward_sequence envEx [] 0 0 (by decide)

/-- C3: along any accepted run of calls from a freshly constructed agent,
total_reward is the exact sum of the rewards delivered by the accepted
percept updates and mean_reward is their arithmetic mean (in exact
arithmetic). -/
theorem C3_mean_and_total (env : Environment) (opts : List (String × Int))
    (cs : List Call) (s1 : Agent)
    (hrun : run_calls (Agent.mk0 env opts) cs = (s1, none)) :
    s1.total_reward = (perceptRewards cs).sum ∧
    s1.mean_reward = (perceptRewards cs).sum / ((perceptRewards cs).length : ℚ) := by
  have h := run_calls_invariant cs (Agent.mk0 env opts) [] s1 (statsOK_mk0 env opts) hrun
  obtain ⟨h1, h2, _, _, _⟩ := h
  simp only [List.nil_append] at h1 h2
  exact ⟨h1, h2⟩

/-- C3 witness: the concrete percept-first run with rewards 1, 2, 3. -/
theorem C3_mean_and_total_witness :
    (run_calls agentEx perceptFirstCalls).1.total_reward =
      (perceptRewards perceptFirstCalls).sum ∧
    (run_calls agentEx perceptFirstCalls).1.mean_reward =
      (perceptRewards perceptFirstCalls).sum /
        ((perceptRewards perceptFirstCalls).length : ℚ) :=
  C3_mean_and_total envEx [] perceptFirstCalls (run_calls agentEx perceptFirstCalls).1
    (by rfl)

/-- C4: along any accepted run of calls from a freshly constructed agent
that delivers at least one reward, reward_m2 equals the sum of the squared
deviations of the delivered rewards from their mean, and reward_m2 divided
by the count equals the population variance computed by the direct
formula. -/
theorem C4_m2_variance (env : Environment) (opts : List (String × Int))
    (cs : List Call) (s1 : Agent)
    (hrun : run_calls (Agent.mk0 env opts) cs = (s1, none))
    (hne : perceptRewards cs ≠ []) :
    s1.reward_m2 = ((perceptRewards cs).map fun x =>
        (x - (perceptRewards cs).sum / ((perceptRewards cs).length : ℚ)) ^ 2).sum ∧
    s1.reward_m2 / ((perceptRewards cs).length : ℚ) = popVariance (perceptRewards cs) := by
  have h := run_calls_invariant cs (Agent.mk0 env opts) [] s1 (statsOK_mk0 env opts) hrun
  obtain ⟨_, _, hm2, _, _⟩ := h
  simp only [List.nil_append] at hm2
  have hs := sum_sq_dev (perceptRewards cs) hne
  constructor
  · rw [hm2, hs]
  · rw [popVariance, hm2, hs]

/-- C4 witness: the concrete percept-first run with rewards 1, 2, 3. -/
theorem C4_m2_variance_witness :
    (run_calls agentEx perceptFirstCalls).1.reward_m2 =
      ((perceptRewards perceptFirstCalls).map fun x =>
        (x - (perceptRewards perceptFirstCalls).sum /
          ((perceptRewards perceptFirstCalls).length : ℚ)) ^ 2).sum ∧
    (run_calls agentEx perceptFirstCalls).1.reward_m2 /
        ((perceptRewards perceptFirstCalls).length : ℚ) =
      popVariance (perceptRewards perceptFirstCalls) :=
  C4_m2_variance envEx [] perceptFirstCalls (run_calls agentEx perceptFirstCalls).1
    (by rfl) (by decide)

/-- C5: from any agent state, the second of two consecutive
model_update_action calls with valid actions fails with ProtocolError, and
the second of two consecutive model_update_percept calls fails with
ProtocolError. -/
theorem C5_strict_alternation (s : Agent) (a a2 o o2 : Int) (r r2 : ℚ)
    (h1 : s.environment.is_valid_action a = true)
    (h2 : s.environment.is_valid_action a2 = true) :
    ((s.model_update_action a).1.model_update_action a2).2 =
      some AgentError.ProtocolError ∧
    ((s.model_update_percept o r).1.model_update_percept o2 r2).2 =
      some AgentError.ProtocolError := by
  constructor
  · rcases hlu : s.last_update with _ | _
    · simp [Agent.model_update_action, hlu, h1, h2]
    · simp [Agent.model_update_action, hlu, h1, h2]
  · rcases hlu : s.last_update with _ | _
    · simp [Agent.model_update_percept, hlu]
    · simp [Agent.model_update_percept, hlu]

/-- C5 witness: double calls from an agent in the percept phase, with the
valid actions 0 and 1. -/
theorem C5_strict_alternation_witness :
    ((agentExP.model_update_action 0).1.model_update_action 1).2 =
      some AgentError.ProtocolError ∧
    ((agentExP.model_update_percept 0 1).1.model_update_percept 0 2).2 =
      some AgentError.ProtocolError :=
  C5_strict_alternation agentExP 0 1 0 0 1 2 (by decide) (by decide)

/-- C6: an action rejected by the environment makes model_update_action
fail with InvalidActionError, and every failing model_update_action or
model_update_percept call returns the state it was given, so age,
last_update, mean_reward, reward_m2 and total_reward are all unchanged. -/
theorem C6_failures_frame :
    (∀ (s : Agent) (a : Int), s.environment.is_valid_action a = false →
        s.model_update_action a = (s, some AgentError.InvalidActionError)) ∧
    (∀ (s : Agent) (a : Int) (s1 : Agent) (e : AgentError),
        s.model_update_action a = (s1, some e) → s1 = s) ∧
    (∀ (s : Agent) (o : Int) (r : ℚ) (s1 : Agent) (e : AgentError),
        s.model_update_percept o r = (s1, some e) → s1 = s) := by
  refine ⟨?_, ?_, ?_⟩
  · intro s a h
    simp [Agent.model_update_action, h]
  · intro s a s1 e h
    unfold Agent.model_update_action at h
    split_ifs at h with h1 h2
    · injection h with h3 h4
      exact h3.symm
    · injection h with h3 h4
      exact h3.symm
    · injection h with h3 h4
      cases h4
  · intro s o r s1 e h
    unfold Agent.model_update_percept at h
    split_ifs at h with h1
    · injection h with h3 h4
      exact h3.symm
    · injection h with h3 h4
      cases h4

/-- C6 witness: an invalid action on a concrete agent fails with
InvalidActionError and returns the untouched state, and concrete failing
calls of both kinds return their input state. -/
theorem C6_failures_frame_witness :
    agentEx.model_update_action 5 = (agentEx, some AgentError.InvalidActionError) ∧
    agentEx = agentEx ∧ agentExP = agentExP :=
  ⟨C6_failures_frame.1 agentEx 5 (by decide),
   C6_failures_frame.2.1 agentEx 5 agentEx AgentError.InvalidActionError
     (C6_failures_frame.1 agentEx 5 (by decide)),
   C6_failures_frame.2.2 agentExP 0 2 agentExP AgentError.ProtocolError (by rfl)⟩

/-- C7: each accepted model_update_action increments age by exactly one and
sets last_update to action_update; model_update_percept never changes age;
reset and construction set age to 0; and along any accepted run of calls
age grows by exactly the number of action calls, so from a fresh or reset
agent age equals the number of completed action updates. -/
theorem C7_age_counts :
    (∀ (s : Agent) (a : Int) (s1 : Agent),
        s.model_update_action a = (s1, none) →
        s1.age = s.age + 1 ∧ s1.last_update = Update.action_update) ∧
    (∀ (s : Agent) (o : Int) (r : ℚ) (s1 : Agent) (e : Option AgentError),
        s.model_update_percept o r = (s1, e) → s1.age = s.age) ∧
    (∀ (s : Agent), (Agent.reset s).age = 0) ∧
    (∀ (env : Environment) (opts : List (String × Int)),
        (Agent.mk0 env opts).age = 0) ∧
    (∀ (s : Agent) (cs : List Call) (s1 : Agent),
        run_calls s cs = (s1, none) → s1.age = s.age + countActions cs) := by
  refine ⟨?_, ?_, ?_, ?_, ?_⟩
  · intro s a s1 h
    obtain ⟨_, _, hs1⟩ := model_update_action_ok h
    rw [hs1]
    exact ⟨rfl, rfl⟩
  · intro s o r s1 e h
    unfold Agent.model_update_percept at h
    split_ifs at h with h1
    · injection h with h3 h4
      rw [← h3]
    · injection h with h3 h4
      rw [← h3]
      simp [Agent.update_reward_statistics]
  · intro s
    rfl
  · intro env opts
    rfl
  · exact fun s cs s1 h => run_calls_age cs s s1 h

/-- C7 witness: a successful action update from the percept phase, a
percept update, and the concrete percept-first run, each at concrete
inputs. -/
theorem C7_age_counts_witness :
    ((agentExP.model_update_action 0).1.age = agentExP.age + 1 ∧
      (agentExP.model_update_action 0).1.last_update = Update.action_update) ∧
    (agentEx.model_update_percept 0 1).1.age = agentEx.age ∧
    (run_calls agentEx perceptFirstCalls).1.age =
      agentEx.age + countActions perceptFirstCalls :=
  ⟨C7_age_counts.1 agentExP 0 (agentExP.model_update_action 0).1 (by rfl),
   C7_age_counts.2.1 agentEx 0 1 (agentEx.model_update_percept 0 1).1
     (agentEx.model_update_percept 0 1).2 (by rfl),
   C7_age_counts.2.2.2.2 agentEx perceptFirstCalls
     (run_calls agentEx perceptFirstCalls).1 (by rfl)⟩

/-- C8: reset zeroes age, mean_reward, reward_m2 and total_reward, returns
last_update to action_update, and leaves environment, options and
learning_period unchanged. -/
theorem C8_reset_state (s : Agent) :
    (Agent.reset s).age = 0 ∧
    (Agent.reset s).mean_reward = 0 ∧
    (Agent.reset s).reward_m2 = 0 ∧
    (Agent.reset s).total_reward = 0 ∧
    (Agent.reset s).last_update = Update.action_update ∧
    (Agent.reset s).environment = s.environment ∧
    (Agent.reset s).options = s.options ∧
    (Agent.reset s).learning_period = s.learning_period :=
  ⟨rfl, rfl, rfl, rfl, rfl, rfl, rfl, rfl⟩

/-- C9: construction fails with ConfigurationError on a missing
environment; otherwise it initialises age 0, phase action_update, zero
statistics, stores the options mapping, and sets learning_period to the
learning-period entry of the options, defaulting to 0 when absent. -/
theorem C9_construction :
    (∀ (opts : List (String × Int)),
        Agent.init none opts = Except.error AgentError.ConfigurationError) ∧
    (∀ (env : Environment) (opts : List (String × Int)),
        Agent.init (some env) opts = Except.ok (Agent.mk0 env opts)) ∧
    (∀ (env : Environment) (opts : List (String × Int)),
        (Agent.mk0 env opts).age = 0 ∧
        (Agent.mk0 env opts).last_update = Update.action_update ∧
        (Agent.mk0 env opts).mean_reward = 0 ∧
        (Agent.mk0 env opts).reward_m2 = 0 ∧
        (Agent.mk0 env opts).total_reward = 0 ∧
        (Agent.mk0 env opts).options = opts ∧
        (Agent.mk0 env opts).environment = env) ∧
    (∀ (env : Environment) (opts : List (String × Int)),
        opts.lookup learning_period_key = none →
        (Agent.mk0 env opts).learning_period = 0) ∧
    (∀ (env : Environment) (opts : List (String × Int)) (v : Int),
        opts.lookup learning_period_key = some v →
        (Agent.mk0 env opts).learning_period = v) := by
  refine ⟨fun _ => rfl, fun _ _ => rfl,
    fun _ _ => ⟨rfl, rfl, rfl, rfl, rfl, rfl, rfl⟩, ?_, ?_⟩
  · intro env opts h
    simp [Agent.mk0, h]
  · intro env opts v h
    simp [Agent.mk0, h]

/-- C9 witness: the learning-period default on empty options and the
stored value on options carrying the key. -/
theorem C9_construction_witness :
    (Agent.mk0 envEx []).learning_period = 0 ∧
    (Agent.mk0 envEx [(learning_period_key, 7)]).learning_period = 7 :=
  ⟨C9_construction.2.2.2.1 envEx [] (by rfl),
   C9_construction.2.2.2.2 envEx [(learning_period_key, 7)] 7 (by simp)⟩

/-- C10: generate_random_action returns a member of valid_actions when the
environment exposes a nonempty valid_actions collection; when it exposes
only the numeric bounds and the range is nonempty it returns an integer in
the half-open interval from minimum_action (inclusive) to maximum_action
(exclusive); and when neither capability is available it returns no value
without an error. -/
theorem C10_generate_random_action :
    (∀ (s : Agent) (i : Nat) (xs : List Int),
        s.environment.valid_actions = some xs → xs ≠ [] →
        ∃ a, s.generate_random_action i = Except.ok (some a) ∧ a ∈ xs) ∧
    (∀ (s : Agent) (i : Nat) (lo hi : Int),
        s.environment.valid_actions = none →
        s.environment.minimum_action = some lo →
        s.environment.maximum_action = some hi → lo < hi →
        ∃ a, s.generate_random_action i = Except.ok (some a) ∧ lo ≤ a ∧ a < hi) ∧
    (∀ (s : Agent) (i : Nat),
        s.environment.valid_actions = none →
        (s.environment.minimum_action = none ∨ s.environment.maximum_action = none) →
        s.generate_random_action i = Except.ok none) := by
  refine ⟨?_, ?_, ?_⟩
  · intro s i xs hva hne
    have hlt : i % xs.length < xs.length := Nat.mod_lt _ (List.length_pos.mpr hne)
    refine ⟨xs.get ⟨i % xs.length, hlt⟩, ?_, List.get_mem xs _ hlt⟩
    simp [Agent.generate_random_action, hva, util_choice, List.get?_eq_get hlt,
      List.getElem?_eq_getElem hlt]
  · intro s i lo hi hva hmin hmax hlt
    have ht : ((hi - lo).toNat : Int) = hi - lo := Int.toNat_of_nonneg (by omega)
    have htpos : 0 < (hi - lo).toNat := by omega
    have hm : i % (hi - lo).toNat < (hi - lo).toNat := Nat.mod_lt _ htpos
    refine ⟨lo + ((i % (hi - lo).toNat : Nat) : Int), ?_, ?_, ?_⟩
    · simp [Agent.generate_random_action, hva, hmin, hmax, randrange, if_pos hlt]
    · have hnn : (0 : Int) ≤ ((i % (hi - lo).toNat : Nat) : Int) := Int.ofNat_nonneg _
      omega
    · have hcast : ((i % (hi - lo).toNat : Nat) : Int) < ((hi - lo).toNat : Int) := by
        exact_mod_cast hm
      omega
  · intro s i hva hnone
    rcases hnone with h | h
    · rcases hother : s.environment.maximum_action with _ | hi
      · simp [Agent.generate_random_action, hva, h, hother]
      · simp [Agent.generate_random_action, hva, h, hother]
    · rcases hother : s.environment.minimum_action with _ | lo
      · simp [Agent.generate_random_action, hva, h, hother]
      · simp [Agent.generate_random_action, hva, h, hother]

/-- C10 witness: each of the three capability shapes at concrete
environments and index 3. -/
theorem C10_generate_random_action_witness :
    (∃ a, agentEx.generate_random_action 3 = Except.ok (some a) ∧ a ∈ [0, 1]) ∧
    (∃ a, (Agent.mk0 envBounds []).generate_random_action 3 = Except.ok (some a) ∧
      0 ≤ a ∧ a < 2) ∧
    (Agent.mk0 envBare []).generate_random_action 3 = Except.ok none :=
  ⟨C10_generate_random_action.1 agentEx 3 [0, 1] (by rfl) (by decide),
   C10_generate_random_action.2.1 (Agent.mk0 envBounds []) 3 0 2
     (by rfl) (by rfl) (by rfl) (by decide),
   C10_generate_random_action.2.2 (Agent.mk0 envBare []) 3 (by rfl) (Or.inl (by rfl))⟩
